import Mathlib

/-
Verification of the scrapinho attribute-extraction engine.

Python strings are modelled as `List Char`; Python `re.search` over the fixed
patterns of `OdaProcessor.PATTERNS` / `MenyProcessor.PATTERNS` is modelled by
hand-written leftmost-match scanners specialised to each pattern (the patterns
are simple enough that greedy matching with no observable backtracking is
provably equivalent, as argued in the comments at each scanner).  Python dicts
carrying the product attribute bag are modelled as insertion-ordered
association lists with `dict.update` semantics (`setKey` / `updateAll`).
-/

/-- Python `str.lower` restricted to the characters that occur in this
repository's rule tables (ASCII plus the Norwegian/French letters used by the
keyword lists). -/
def lowerChar (c : Char) : Char :=
  if c.isUpper then c.toLower
  else if c = 'Æ' then 'æ'
  else if c = 'Ø' then 'ø'
  else if c = 'Å' then 'å'
  else if c = 'É' then 'é'
  else if c = 'È' then 'è'
  else if c = 'Î' then 'î'
  else if c = 'Â' then 'â'
  else c

/-- Upper-casing for the same character range (used for `.upper()` and
`.capitalize()`). -/
def upperChar (c : Char) : Char :=
  if c.isLower then c.toUpper
  else if c = 'æ' then 'Æ'
  else if c = 'ø' then 'Ø'
  else if c = 'å' then 'Å'
  else if c = 'é' then 'É'
  else if c = 'è' then 'È'
  else if c = 'î' then 'Î'
  else if c = 'â' then 'Â'
  else c

def lowerStr (s : List Char) : List Char := s.map lowerChar

def upperStr (s : List Char) : List Char := s.map upperChar

/-- Python `str.capitalize()`: first character upper-cased, the rest
lower-cased. -/
def capitalizeStr (s : List Char) : List Char :=
  match s with
  | [] => []
  | c :: t => upperChar c :: lowerStr t

/-- Convert a Lean string literal to the `List Char` model of Python strings. -/
def pyStr (s : String) : List Char := s.toList

def isDigitCh (c : Char) : Bool := c.isDigit

/-- Python regex `\s` (and `str.strip`/`str.isspace` whitespace set):
space, tab, newline, carriage return, vertical tab, form feed. -/
def isSpaceCh (c : Char) : Bool :=
  c == ' ' || c == '\t' || c == '\n' || c == '\r' ||
  c == Char.ofNat 11 || c == Char.ofNat 12

/-- Case-insensitive "text starts with the (lower-case) pattern". -/
def ciStarts : List Char → List Char → Bool
  | [], _ => true
  | _ :: _, [] => false
  | p :: ps, c :: cs => (lowerChar c == p) && ciStarts ps cs

/-- First alternative of a regex alternation that matches at the start of the
text (Python's alternation is ordered, leftmost alternative preferred).
Returns the (lower-case) pattern of the successful alternative, which equals
the lower-casing of the matched text. -/
def findCI (alts : List (List Char)) (s : List Char) : Option (List Char) :=
  alts.find? (fun a => ciStarts a s)

/-- Plain (case-sensitive) "needle occurs as a substring of hay", Python's
`needle in hay`. -/
def containsSub (hay needle : List Char) : Bool :=
  match hay with
  | [] => needle.isEmpty
  | _ :: t => needle.isPrefixOf hay || containsSub t needle

/-- Python `str.split(",")`. -/
def splitOnComma : List Char → List (List Char)
  | [] => [[]]
  | c :: t =>
    match splitOnComma t with
    | [] => [[]]
    | h :: hs => if c == ',' then [] :: h :: hs else (c :: h) :: hs

/-- Python `str.strip()`. -/
def stripStr (s : List Char) : List Char :=
  ((s.dropWhile isSpaceCh).reverse.dropWhile isSpaceCh).reverse

/-- Python `str.isupper()`: at least one cased character, and no lower-case
character (for the alphabet in play cased = upper ∪ lower, disjoint). -/
def isLowerCh (c : Char) : Bool :=
  c.isLower || c == 'æ' || c == 'ø' || c == 'å' || c == 'é' || c == 'è' ||
  c == 'î' || c == 'â'

def isUpperCh (c : Char) : Bool :=
  c.isUpper || c == 'Æ' || c == 'Ø' || c == 'Å' || c == 'É' || c == 'È' ||
  c == 'Î' || c == 'Â'

def isCasedCh (c : Char) : Bool := isLowerCh c || isUpperCh c

def pyIsUpper (s : List Char) : Bool :=
  s.any isCasedCh && !(s.any isLowerCh)

/-- Value of a run of decimal digit characters. -/
def digitsToNat (l : List Char) : Nat :=
  l.foldl (fun n c => 10 * n + (c.toNat - 48)) 0

/-- Python `float` on a string of the shape `digits` or `digits.digits`
(the only shapes the extractor ever feeds it), modelled exactly as a
rational. -/
def parseDec (s : List Char) : ℚ :=
  let ip := s.takeWhile (fun c => !(c == '.'))
  match s.drop ip.length with
  | [] => (digitsToNat ip : ℚ)
  | _ :: fp => (digitsToNat ip : ℚ) + (digitsToNat fp : ℚ) / (10 : ℚ) ^ fp.length

/-- Python `str.replace(",", ".")`. -/
def replaceComma (s : List Char) : List Char :=
  s.map (fun c => if c == ',' then '.' else c)

/-- Leftmost-search driver: Python `re.search` tries the pattern at every
start position, left to right (none of the embedded patterns can match the
empty string, so the end position never matters). -/
def searchWith {α : Type} (f : List Char → Option α) : List Char → Option α
  | [] => none
  | c :: cs =>
    match f (c :: cs) with
    | some r => some r
    | none => searchWith f cs

/-- Match `\d+(?:[.,]\d+)?` at the start of the text; returns the matched
characters and the rest.  The greedy sub-matches never need backtracking in
the contexts this is used (the construct following the number is `\s*` plus a
letter alternation or a `%`/`x` literal, none of which can start with a digit
or with the `[.,]` separator), so committing to the greedy parse is faithful
to Python. -/
def matchNumAt (cs : List Char) : Option (List Char × List Char) :=
  let ds := cs.takeWhile isDigitCh
  if ds.isEmpty then none
  else
    match cs.drop ds.length with
    | c :: r2 =>
      if c == '.' || c == ',' then
        let fs := r2.takeWhile isDigitCh
        if fs.isEmpty then some (ds, c :: r2)
        else some (ds ++ c :: fs, r2.drop fs.length)
      else some (ds, c :: r2)
    | [] => some (ds, [])

def sizeUnits : List (List Char) :=
  [pyStr "l", pyStr "ml", pyStr "g", pyStr "kg", pyStr "dl", pyStr "cl", pyStr "stk"]

/-- PATTERNS["size"] = `(\d+(?:[.,]\d+)?)\s*(l|ml|g|kg|dl|cl|stk)`, IGNORECASE,
matched at one position; returns (group 1, lower-cased group 2). -/
def matchSizeAt (cs : List Char) : Option (List Char × List Char) :=
  match matchNumAt cs with
  | some (g1, r) =>
    match findCI sizeUnits (r.dropWhile isSpaceCh) with
    | some u => some (g1, u)
    | none => none
  | none => none

def searchSize : List Char → Option (List Char × List Char) :=
  searchWith matchSizeAt

/-- PATTERNS["percentage"] = `(\d+(?:[.,]\d+)?)%(?:\s+fett)?` (no flags);
the optional `fett` tail does not influence group 1 or matching success. -/
def matchFatAt (cs : List Char) : Option (List Char) :=
  match matchNumAt cs with
  | some (g1, r) =>
    match r with
    | c :: _ => if c == '%' then some g1 else none
    | [] => none
  | none => none

def searchFat : List Char → Option (List Char) :=
  searchWith matchFatAt

def multiUnits : List (List Char) :=
  [pyStr "g", pyStr "ml", pyStr "l", pyStr "kg", pyStr "stk"]

/-- PATTERNS["multipack"] = `(\d+)x(\d+(?:[.,]\d+)?)\s*(g|ml|l|kg|stk)`,
IGNORECASE. -/
def matchMultiAt (cs : List Char) : Option (List Char × List Char × List Char) :=
  let ds := cs.takeWhile isDigitCh
  if ds.isEmpty then none
  else
    match cs.drop ds.length with
    | x :: r1 =>
      if lowerChar x == 'x' then
        match matchNumAt r1 with
        | some (g2, r2) =>
          match findCI multiUnits (r2.dropWhile isSpaceCh) with
          | some u => some (ds, g2, u)
          | none => none
        | none => none
      else none
    | [] => none

def searchMulti : List Char → Option (List Char × List Char × List Char) :=
  searchWith matchMultiAt

def packWords : List (List Char) :=
  [pyStr "pk", pyStr "stk", pyStr "pakk", pyStr "pakning"]

/-- PATTERNS["pack_quantity"] = `(\d+)\s*(?:pk|stk|pakk|pakning)`, IGNORECASE. -/
def matchPackAt (cs : List Char) : Option (List Char) :=
  let ds := cs.takeWhile isDigitCh
  if ds.isEmpty then none
  else
    match findCI packWords ((cs.drop ds.length).dropWhile isSpaceCh) with
    | some _ => some ds
    | none => none

def searchPack : List Char → Option (List Char) :=
  searchWith matchPackAt

def eggSizes : List (List Char) :=
  [pyStr "xs", pyStr "s", pyStr "m", pyStr "l", pyStr "xl"]

/-- PATTERNS["egg_size"] = `(?:str\.?|størrelse)\s*(xs|s|m|l|xl)`, IGNORECASE.
Note the `str.`/`størrelse` marker is a mandatory part of the pattern; only
the dot after `str` is optional.  Returns the lower-cased group 1. -/
def matchEggSizeAt (cs : List Char) : Option (List Char) :=
  if ciStarts (pyStr "str") cs then
    let r1 := cs.drop 3
    let r2 := match r1 with
      | c :: t => if c == '.' then t else r1
      | [] => r1
    findCI eggSizes (r2.dropWhile isSpaceCh)
  else if ciStarts (pyStr "størrelse") cs then
    findCI eggSizes ((cs.drop 9).dropWhile isSpaceCh)
  else none

def searchEggSize : List Char → Option (List Char) :=
  searchWith matchEggSizeAt

def eggWords : List (List Char) := [pyStr "stk", pyStr "egg"]

/-- PATTERNS["egg_quantity"] = `(\d+)\s*(?:stk|egg)`, IGNORECASE. -/
def matchEggQAt (cs : List Char) : Option (List Char) :=
  let ds := cs.takeWhile isDigitCh
  if ds.isEmpty then none
  else
    match findCI eggWords ((cs.drop ds.length).dropWhile isSpaceCh) with
    | some _ => some ds
    | none => none

def searchEggQ : List Char → Option (List Char) :=
  searchWith matchEggQAt

def agingWords : List (List Char) := [pyStr "mnd", pyStr "måned"]

/-- Cheese aging pattern `(\d+)\s*(?:mnd|måned)`, IGNORECASE. -/
def matchAgingAt (cs : List Char) : Option (List Char) :=
  let ds := cs.takeWhile isDigitCh
  if ds.isEmpty then none
  else
    match findCI agingWords ((cs.drop ds.length).dropWhile isSpaceCh) with
    | some _ => some ds
    | none => none

def searchAging : List Char → Option (List Char) :=
  searchWith matchAgingAt

/-- BRANDS table, identical in `OdaProcessor` and `MenyProcessor`; a Python
dict iterated in insertion order, modelled as the ordered pair list. -/
def BRANDS : List (List Char × List Char) :=
  [ (pyStr "tine", pyStr "TINE"),
    (pyStr "oatly", pyStr "OATLY"),
    (pyStr "prior", pyStr "Prior"),
    (pyStr "q meieriene", pyStr "Q"),
    (pyStr "q-meieriene", pyStr "Q"),
    (pyStr "q", pyStr "Q"),
    (pyStr "melange", pyStr "Melange"),
    (pyStr "soft flora", pyStr "Soft Flora"),
    (pyStr "alpro", pyStr "Alpro"),
    (pyStr "synnøve", pyStr "Synnøve"),
    (pyStr "synnøve finden", pyStr "Synnøve Finden"),
    (pyStr "rørosmeieriet", pyStr "Rørosmeieriet"),
    (pyStr "castello", pyStr "Castello"),
    (pyStr "kavli", pyStr "Kavli"),
    (pyStr "fjordland", pyStr "Fjordland"),
    (pyStr "yoplait", pyStr "Yoplait"),
    (pyStr "danonino", pyStr "Danonino"),
    (pyStr "helios", pyStr "Helios"),
    (pyStr "stange", pyStr "Stange"),
    (pyStr "vita hjertego\x27", pyStr "Vita hjertego\x27"),
    (pyStr "sproud", pyStr "Sproud"),
    (pyStr "bremykt", pyStr "Bremykt"),
    (pyStr "mills", pyStr "Mills"),
    (pyStr "arla", pyStr "Arla"),
    (pyStr "go\x27", pyStr "Go\x27"),
    (pyStr "go\x27morgen", pyStr "Go\x27morgen"),
    (pyStr "go\x27dag", pyStr "Go\x27dag"),
    (pyStr "galbani", pyStr "Galbani"),
    (pyStr "président", pyStr "Président"),
    (pyStr "becel", pyStr "Becel") ]

/-- SUBCATEGORY_MAPPING, identical in both processors; ordered pair list. -/
def SUBCATEGORY_MAPPING : List (List Char × List (List Char)) :=
  [ (pyStr "melk",
      [pyStr "melk", pyStr "lettmelk", pyStr "skummet", pyStr "mjølk",
       pyStr "litago", pyStr "helmelk", pyStr "kulturmjølk"]),
    (pyStr "plantebasert",
      [pyStr "havredrikk", pyStr "soyadrikk", pyStr "mandeldrikk", pyStr "mylk",
       pyStr "ikaffe", pyStr "plantebasert", pyStr "plantedrikk"]),
    (pyStr "ost",
      [pyStr "ost", pyStr "norvegia", pyStr "jarlsberg", pyStr "geitost",
       pyStr "mozzarella", pyStr "cheddar", pyStr "pizzaost", pyStr "manchego",
       pyStr "blue", pyStr "selbu blå", pyStr "parmigiano", pyStr "grana padano"]),
    (pyStr "smør",
      [pyStr "smør", pyStr "meierismør", pyStr "margarin", pyStr "melange",
       pyStr "soft flora", pyStr "brelett", pyStr "bremykt"]),
    (pyStr "egg", [pyStr "egg", pyStr "høner"]),
    (pyStr "fløte_rømme",
      [pyStr "rømme", pyStr "crème fraîche", pyStr "matfløte", pyStr "havrefløte",
       pyStr "imat", pyStr "matfrisk", pyStr "matfløyel", pyStr "fløte",
       pyStr "kremfløte"]),
    (pyStr "yoghurt",
      [pyStr "yoghurt", pyStr "skyr", pyStr "biola", pyStr "go\x27morgen",
       pyStr "activia", pyStr "go\x27dag"]),
    (pyStr "kjølte_desserter",
      [pyStr "pudding", pyStr "risgrøt", pyStr "rispudding", pyStr "risengrynsgrøt"]),
    (pyStr "cottage_cheese",
      [pyStr "cottage cheese", pyStr "kesam", pyStr "kvarg", pyStr "cottage"]) ]

/-- The combined text `f"{name} {info}".lower()` that the subcategory
classifier scans. -/
def subcatText (name info : List Char) : List Char :=
  lowerStr (name ++ ' ' :: info)

/-- `any(keyword.lower() in text for keyword in keywords)`. -/
def catHit (text : List Char) (kws : List (List Char)) : Bool :=
  kws.any (fun kw => containsSub text (lowerStr kw))

/-- `determine_subcategory`, identical in `OdaProcessor` and `MenyProcessor`:
first subcategory whose keyword list has a member occurring in the lower-cased
`f"{name} {info}"`, else "other". -/
def determine_subcategory (name info : List Char) : List Char :=
  match SUBCATEGORY_MAPPING.find? (fun pr => catHit (subcatText name info) pr.2) with
  | some pr => pr.1
  | none => pyStr "other"

/-- Truthiness of an optional string field (`if not product.brand`): `None`
and the empty string are falsy. -/
def truthyOpt : Option (List Char) → Bool
  | none => false
  | some s => !s.isEmpty

/-- `OdaProcessor.extract_brand` (also the body of `MenyProcessor.extract_brand`
after its `_current_brand` check): dictionary match on the lower-cased
`f"{info} {name}"`, then the upper-case comma-segment fallback, then the
trailing-segment fallback. -/
def extract_brand (info name : List Char) : Option (List Char) :=
  let text := lowerStr (info ++ ' ' :: name)
  match BRANDS.find? (fun kv => containsSub text (lowerStr kv.1)) with
  | some kv => some kv.2
  | none =>
    let parts := splitOnComma info
    match parts.find?
        (fun part => pyIsUpper (stripStr part) && decide (1 < (stripStr part).length)) with
    | some part => some (stripStr part)
    | none =>
      if info.contains ',' then
        let last_part := stripStr (parts.getLastD [])
        if last_part.length < 20 then some last_part else none
      else none

/-- `MenyProcessor.extract_brand`: first consults the `_current_brand`
instance field stashed by `process_product` (modelled as the explicit `cur`
state argument); if that is truthy it is returned regardless of the `info`
and `name` arguments. -/
def meny_extract_brand (cur : Option (List Char)) (info name : List Char) :
    Option (List Char) :=
  if truthyOpt cur then cur else extract_brand info name

/-- `extract_size`, identical in both processors:
`(size_quantity, size_unit)`, `None` components when the pattern misses. -/
def extract_size (info : List Char) : Option ℚ × Option (List Char) :=
  match searchSize info with
  | some (g1, u) => (some (parseDec (replaceComma g1)), some u)
  | none => (none, none)

/-- `extract_fat_content`, identical in both processors. -/
def extract_fat_content (info : List Char) : Option ℚ :=
  match searchFat info with
  | some g1 => some (parseDec (replaceComma g1))
  | none => none

/-- `extract_multipack_info`, identical in both processors:
`(pack_quantity, unit_size, unit_size_unit)`.  When the multipack pattern
misses, the pack-quantity pattern is tried, and `unit_size`/`unit_size_unit`
stay `None` (the three-key dict is still returned whole). -/
def extract_multipack_info (info : List Char) :
    Option ℤ × Option ℚ × Option (List Char) :=
  match searchMulti info with
  | some (ds, g2, u) =>
    (some (digitsToNat ds : ℤ), some (parseDec (replaceComma g2)), some u)
  | none =>
    match searchPack info with
    | some ds => (some (digitsToNat ds : ℤ), none, none)
    | none => (none, none, none)

/-- `extract_egg_info`, identical in both processors:
`(egg_size, egg_quantity, egg_type)`. -/
def extract_egg_info (info : List Char) :
    Option (List Char) × Option ℤ × Option (List Char) :=
  let egg_size := (searchEggSize info).map upperStr
  let egg_quantity := (searchEggQ info).map (fun ds => (digitsToNat ds : ℤ))
  let egg_type :=
    if containsSub (lowerStr info) (pyStr "frittgående") then
      some (pyStr "Frittgående")
    else if containsSub (lowerStr info) (pyStr "økologisk") then
      some (pyStr "Økologisk")
    else if containsSub (lowerStr info) (pyStr "friland") then
      some (pyStr "Friland")
    else none
  (egg_size, egg_quantity, egg_type)

def cheeseTypes : List (List Char) :=
  [pyStr "hvit", pyStr "blå", pyStr "brie", pyStr "cheddar", pyStr "feta",
   pyStr "parmesan", pyStr "geitost", pyStr "brunost"]

/-- `OdaProcessor.extract_cheese_info`: `(cheese_type, aging, preparation)`
(the dict-literal key order). -/
def extract_cheese_info (info : List Char) :
    Option (List Char) × Option (List Char) × Option (List Char) :=
  let low := lowerStr info
  let preparation :=
    if containsSub low (pyStr "skivet") || containsSub low (pyStr "skiver") then
      some (pyStr "Skivet")
    else if containsSub low (pyStr "revet") || containsSub low (pyStr "raspet") then
      some (pyStr "Revet")
    else if containsSub low (pyStr "hel") then some (pyStr "Hel")
    else none
  let aging := (searchAging info).map (fun ds => ds ++ pyStr " måneder")
  let cheese_type := (cheeseTypes.find? (fun t => containsSub low t)).map capitalizeStr
  (cheese_type, aging, preparation)

/-- `OdaProcessor.extract_dietary_info`:
`(lactose_free, gluten_free, organic, vegan)`. -/
def extract_dietary_info (info : List Char) : Bool × Bool × Bool × Bool :=
  let low := lowerStr info
  (containsSub low (pyStr "laktosefri") || containsSub low (pyStr "uten laktose"),
   containsSub low (pyStr "glutenfri") || containsSub low (pyStr "uten gluten"),
   containsSub low (pyStr "økologisk") || containsSub low (pyStr "organic") ||
     containsSub low (pyStr "eco") || containsSub low (pyStr "øko"),
   containsSub low (pyStr "vegansk") || containsSub low (pyStr "vegan") ||
     containsSub low (pyStr "plantebasert"))

def flavorsTable : List (List Char) :=
  [pyStr "jordbær", pyStr "vanilje", pyStr "sjokolade", pyStr "bringebær",
   pyStr "blåbær", pyStr "skogsbær", pyStr "kakao", pyStr "karamell",
   pyStr "sitron", pyStr "eple", pyStr "kanel", pyStr "kardemomme", pyStr "banan"]

def productTypesTable : List (List Char × List (List Char)) :=
  [ (pyStr "lettmelk", [pyStr "lettmelk", pyStr "lett melk"]),
    (pyStr "helmelk", [pyStr "helmelk", pyStr "hel melk"]),
    (pyStr "skummet", [pyStr "skummet", pyStr "skumma"]),
    (pyStr "kefir", [pyStr "kefir"]),
    (pyStr "kulturmelk", [pyStr "kulturmelk", pyStr "kulturmjølk"]),
    (pyStr "ekstra lett", [pyStr "ekstra lett", pyStr "extra lett"]) ]

/-- `OdaProcessor.extract_features`: `(flavor, product_type)`; each entry is
present in the result dict only when a keyword matched. -/
def extract_features (name info : List Char) :
    Option (List Char) × Option (List Char) :=
  let combined := lowerStr (name ++ ' ' :: info)
  ((flavorsTable.find? (fun f => containsSub combined f)).map capitalizeStr,
   (productTypesTable.find?
       (fun pr => pr.2.any (fun kw => containsSub combined kw))).map
     (fun pr => capitalizeStr pr.1))

/-- Helper for `clean_text`: collapse runs of whitespace into single spaces
(`re.sub(r"\s+", " ", text)`), after every whitespace character has been
mapped to a plain space. -/
def squeezeSpaces : List Char → List Char
  | [] => []
  | [c] => [c]
  | a :: b :: t =>
    if a == ' ' && b == ' ' then squeezeSpaces (b :: t)
    else a :: squeezeSpaces (b :: t)

/-- `BaseProcessor.clean_text`: collapse whitespace and strip, then normalize
semicolons to commas, then delete double and single quotes. -/
def cleanText (s : List Char) : List Char :=
  let collapsed := stripStr (squeezeSpaces (s.map (fun c => if isSpaceCh c then ' ' else c)))
  let semis := collapsed.map (fun c => if c == ';' then ',' else c)
  semis.filter (fun c => !(c == '"' || c == Char.ofNat 39))

/-- Scalar values of the Python attribute dict. -/
inductive Val : Type where
  | none : Val
  | num : ℚ → Val
  | int : ℤ → Val
  | str : List Char → Val
  | bool : Bool → Val
deriving DecidableEq

def optValNum : Option ℚ → Val
  | some q => Val.num q
  | Option.none => Val.none

def optValInt : Option ℤ → Val
  | some n => Val.int n
  | Option.none => Val.none

def optValStr : Option (List Char) → Val
  | some s => Val.str s
  | Option.none => Val.none

/-- Python `dict[k] = v` on an insertion-ordered association list: an existing
key keeps its position, a new key is appended at the end. -/
def setKey (d : List (List Char × Val)) (k : List Char) (v : Val) :
    List (List Char × Val) :=
  match d with
  | [] => [(k, v)]
  | (k2, v2) :: t => if k2 = k then (k2, v) :: t else (k2, v2) :: setKey t k v

/-- Python `dict.update`: set every key of the update dict in order. -/
def updateAll (d : List (List Char × Val)) : List (List Char × Val) →
    List (List Char × Val)
  | [] => d
  | (k, v) :: t => updateAll (setKey d k v) t

/-- Python `dict[k]` lookup (as an option). -/
def getVal (d : List (List Char × Val)) (k : List Char) : Option Val :=
  match d with
  | [] => Option.none
  | (k2, v) :: t => if k2 = k then some v else getVal t k

/-- The dict returned by `extract_size` (keys always present). -/
def sizeDict (info : List Char) : List (List Char × Val) :=
  [(pyStr "size_quantity", optValNum (extract_size info).1),
   (pyStr "size_unit", optValStr (extract_size info).2)]

/-- The conditional `fat_content` entry of `process_product`. -/
def fatDict (info : List Char) : List (List Char × Val) :=
  match extract_fat_content info with
  | some q => [(pyStr "fat_content", Val.num q)]
  | Option.none => []

/-- The dict returned by `extract_multipack_info` (keys always present). -/
def multipackDict (info : List Char) : List (List Char × Val) :=
  [(pyStr "pack_quantity", optValInt (extract_multipack_info info).1),
   (pyStr "unit_size", optValNum (extract_multipack_info info).2.1),
   (pyStr "unit_size_unit", optValStr (extract_multipack_info info).2.2)]

/-- The dict returned by `extract_dietary_info` (keys always present). -/
def dietaryDict (info : List Char) : List (List Char × Val) :=
  [(pyStr "lactose_free", Val.bool (extract_dietary_info info).1),
   (pyStr "gluten_free", Val.bool (extract_dietary_info info).2.1),
   (pyStr "organic", Val.bool (extract_dietary_info info).2.2.1),
   (pyStr "vegan", Val.bool (extract_dietary_info info).2.2.2)]

/-- The dict returned by `extract_features` (keys present only on a match,
flavor inserted before product_type). -/
def featuresDict (name info : List Char) : List (List Char × Val) :=
  (match (extract_features name info).1 with
   | some f => [(pyStr "flavor", Val.str f)]
   | Option.none => []) ++
  (match (extract_features name info).2 with
   | some t => [(pyStr "product_type", Val.str t)]
   | Option.none => [])

/-- The dict returned by `extract_egg_info` (keys always present). -/
def eggDict (info : List Char) : List (List Char × Val) :=
  [(pyStr "egg_size", optValStr (extract_egg_info info).1),
   (pyStr "egg_quantity", optValInt (extract_egg_info info).2.1),
   (pyStr "egg_type", optValStr (extract_egg_info info).2.2)]

/-- The dict returned by `extract_cheese_info` (dict-literal key order:
cheese_type, aging, preparation). -/
def cheeseDict (info : List Char) : List (List Char × Val) :=
  [(pyStr "cheese_type", optValStr (extract_cheese_info info).1),
   (pyStr "aging", optValStr (extract_cheese_info info).2.1),
   (pyStr "preparation", optValStr (extract_cheese_info info).2.2)]

/-- The `Product` dataclass of `models/product.py`. -/
structure Product : Type where
  product_id : List Char
  name : List Char
  info : List Char
  price : ℚ
  price_text : List Char
  unit_price : Option (List Char)
  brand : Option (List Char)
  image_url : Option (List Char)
  category : Option (List Char)
  subcategory : Option (List Char)
  url : Option (List Char)
  attributes : List (List Char × Val)
  scraped_at : ℤ
  run_id : Option (List Char)
deriving DecidableEq

/-- Brand field after `OdaProcessor.process_product` (set only when the
incoming brand is falsy). -/
def odaBrandOf (p : Product) : Option (List Char) :=
  if truthyOpt p.brand then p.brand
  else extract_brand (cleanText p.info) (cleanText p.name)

/-- Subcategory field after `OdaProcessor.process_product` (set only when the
incoming subcategory is falsy). -/
def odaSubcatOf (p : Product) : Option (List Char) :=
  if truthyOpt p.subcategory then p.subcategory
  else some (determine_subcategory (cleanText p.name) (cleanText p.info))

/-- Concatenation of all dicts merged into `product.attributes` by
`OdaProcessor.process_product`, in merge order (merging them one by one with
`dict.update` equals one `updateAll` of the concatenation). -/
def odaDictsOf (p : Product) : List (List Char × Val) :=
  let ci := cleanText p.info
  let cn := cleanText p.name
  sizeDict ci ++ fatDict ci ++ multipackDict ci ++ dietaryDict ci ++
    featuresDict cn ci ++
    (if odaSubcatOf p = some (pyStr "egg") then eggDict ci
     else if odaSubcatOf p = some (pyStr "ost") then cheeseDict ci
     else [])

/-- `OdaProcessor.process_product` on a product with non-empty info. -/
def odaBody (p : Product) : Product :=
  { p with
    brand := odaBrandOf p,
    subcategory := odaSubcatOf p,
    attributes := updateAll p.attributes (odaDictsOf p) }

/-- `OdaProcessor.process_product`: short-circuit on empty info, else extract. -/
def oda_process_product (p : Product) : Product :=
  if p.info = [] then p else odaBody p

/-- Subcategory after `MenyProcessor.process_product` (same rule as Oda). -/
def menySubcatOf (p : Product) : Option (List Char) := odaSubcatOf p

/-- Dicts merged by `MenyProcessor.process_product`: size, fat, multipack,
and egg info when the resolved subcategory is "egg". -/
def menyDictsOf (p : Product) : List (List Char × Val) :=
  let ci := cleanText p.info
  sizeDict ci ++ fatDict ci ++ multipackDict ci ++
    (if menySubcatOf p = some (pyStr "egg") then eggDict ci else [])

/-- Brand field after `MenyProcessor.process_product`: resolved through
`meny_extract_brand` with the `_current_brand` stash, which at that point
holds exactly `product.brand` (stashed at the top of the call). -/
def menyBrandOf (p : Product) : Option (List Char) :=
  if truthyOpt p.brand then p.brand
  else meny_extract_brand p.brand (cleanText p.info) (cleanText p.name)

/-- `MenyProcessor.process_product` on a product with non-empty info. -/
def menyBody (p : Product) : Product :=
  { p with
    brand := menyBrandOf p,
    subcategory := menySubcatOf p,
    attributes := updateAll p.attributes (menyDictsOf p) }

/-- `MenyProcessor.process_product` including the processor-state effect:
takes and returns the `_current_brand` instance field. -/
def meny_process_pair (cur : Option (List Char)) (p : Product) :
    Option (List Char) × Product :=
  if p.info = [] then (cur, p) else (p.brand, menyBody p)

/-- The product returned by `MenyProcessor.process_product` (it does not
depend on the incoming `_current_brand`, which is overwritten before use). -/
def meny_process_product (p : Product) : Product :=
  if p.info = [] then p else menyBody p

/-- `BaseProcessor.process_products`, parametric in the subclass
`process_product` which may raise (modelled as `Except`): per-item failures
keep the original item, processing continues. -/
def process_products {ε : Type} (f : Product → Except ε Product) :
    List Product → List Product
  | [] => []
  | p :: ps =>
    (match f p with
     | Except.ok q => q
     | Except.error _ => p) :: process_products f ps

/-- A concrete product fixture builder for witnesses. -/
def mkProduct (pid name info : List Char) (brand subcat : Option (List Char)) :
    Product :=
  { product_id := pid, name := name, info := info, price := 0,
    price_text := [], unit_price := Option.none, brand := brand,
    image_url := Option.none, category := Option.none, subcategory := subcat,
    url := Option.none, attributes := [], scraped_at := 0,
    run_id := Option.none }

def pC1 : Product :=
  mkProduct (pyStr "c1") (pyStr "Melk") (pyStr "Helmelk 1 l")
    (some (pyStr "ACME")) Option.none

def pC2good : Product :=
  mkProduct (pyStr "good") (pyStr "Lettmelk") (pyStr "1,75 l") Option.none Option.none

def pC2bad : Product :=
  mkProduct (pyStr "bad") (pyStr "Smør") (pyStr "500 g") Option.none Option.none

/-- A step function with one item engineered to throw. -/
def fC2 : Product → Except Unit Product :=
  fun p =>
    if p.product_id = pyStr "bad" then Except.error ()
    else Except.ok (oda_process_product p)

def pC5 : Product :=
  mkProduct (pyStr "c5") (pyStr "vare") (pyStr "3 pk") Option.none Option.none

def pC7 : Product :=
  mkProduct (pyStr "c7") (pyStr "Lettmelk") (pyStr "Lettmelk 1,75 l, TINE")
    (some (pyStr "TINE")) (some (pyStr "melk"))

def pC8 : Product :=
  mkProduct (pyStr "c8") (pyStr "Norvegia") [] Option.none Option.none



/-- C1: the spec's purity invariant for extraction is right, and the Meny code
violates it: `MenyProcessor.extract_brand` consults the `_current_brand`
instance field left behind by an earlier `process_product` call, so two calls
with identical `info`/`name` arguments return different brands depending on
that stash, and `process_product` mutates the stash (state outside the
product) on every call with non-empty info. -/
theorem claim_C1_bug :
    meny_extract_brand (some (pyStr "ACME")) (pyStr "oatly havredrikk") (pyStr "") =
      some (pyStr "ACME") ∧
    meny_extract_brand Option.none (pyStr "oatly havredrikk") (pyStr "") =
      some (pyStr "OATLY") ∧
    (meny_process_pair Option.none pC1).1 = some (pyStr "ACME") := by
  refine ⟨by decide, by decide, ?_⟩
  decide

/-- C2: `process_products` returns a same-length list; at every position the
output is the processed item when the step function succeeds there and the
original item when it raises, so one failing item neither stops nor alters
the processing of the others. -/
theorem claim_C2 {ε : Type} (f : Product → Except ε Product) (ps : List Product) :
    (process_products f ps).length = ps.length ∧
    (∀ i q e, ps.get? i = some q → f q = Except.error e →
      (process_products f ps).get? i = some q) ∧
    (∀ i q r, ps.get? i = some q → f q = Except.ok r →
      (process_products f ps).get? i = some r) := by
  induction ps with
  | nil =>
    refine ⟨rfl, ?_, ?_⟩
    · intro i q e h _; simp at h
    · intro i q r h _; simp at h
  | cons p t ih =>
    refine ⟨by simp [process_products, ih.1], ?_, ?_⟩
    · intro i q e h hf
      cases i with
      | zero =>
        simp at h
        subst h
        simp [process_products, hf]
      | succ j =>
        simpa [process_products] using ih.2.1 j q e (by simpa using h) hf
    · intro i q r h hf
      cases i with
      | zero =>
        simp at h
        subst h
        simp [process_products, hf]
      | succ j =>
        simpa [process_products] using ih.2.2 j q r (by simpa using h) hf

/-- C2 witness: a two-item batch whose second item throws: same length, the
thrown item is returned unchanged, the first item is fully processed. -/
theorem claim_C2_witness :
    (process_products fC2 [pC2good, pC2bad]).length = 2 ∧
    (process_products fC2 [pC2good, pC2bad]).get? 1 = some pC2bad ∧
    (process_products fC2 [pC2good, pC2bad]).get? 0 =
      some (oda_process_product pC2good) := by
  obtain ⟨h1, h2, h3⟩ := claim_C2 fC2 [pC2good, pC2bad]
  exact ⟨h1, h2 1 pC2bad () rfl rfl, h3 0 pC2good (oda_process_product pC2good) rfl rfl⟩

/-- C3 counterexample: the `str.`/`størrelse` marker in the egg-size pattern
is mandatory, not optional — a bare size letter with no marker yields no
`egg_size`, contradicting the claim's "without the prefix, egg_size is still
extracted". -/
theorem claim_C3_counterexample :
    (extract_egg_info (pyStr "m")).1 = Option.none ∧
    (extract_egg_info (pyStr "xl")).1 = Option.none := by
  exact ⟨by decide, by decide⟩

/-- C3 as amended: the egg-size pattern requires a `str.`/`str`/`størrelse`
marker (only the dot after `str` is optional) before the size letter
`xs|s|m|l|xl`, case-insensitively, and returns the letter upper-cased; with
no marker in the text, no egg_size is extracted. -/
theorem claim_C3 :
    ∀ u, u ∈ eggSizes →
      (extract_egg_info (pyStr "str. " ++ u)).1 = some (upperStr u) ∧
      (extract_egg_info (pyStr "STR " ++ u)).1 = some (upperStr u) ∧
      (extract_egg_info (pyStr "størrelse " ++ u)).1 = some (upperStr u) ∧
      (extract_egg_info u).1 = Option.none := by
  decide

/-- C3 witness: the amended statement at the concrete size letter "m". -/
theorem claim_C3_witness :
    (extract_egg_info (pyStr "str. m")).1 = some (pyStr "M") ∧
    (extract_egg_info (pyStr "m")).1 = Option.none := by
  obtain ⟨h1, _, _, h4⟩ := claim_C3 (pyStr "m") (by decide)
  exact ⟨h1, h4⟩

/-- C8: a product whose info text is empty is returned completely unchanged
by both processors (and the Meny processor state is untouched too): the
short-circuit happens before any extraction or mutation. -/
theorem claim_C8 (p : Product) (st : Option (List Char)) (h : p.info = []) :
    oda_process_product p = p ∧
    meny_process_pair st p = (st, p) ∧
    meny_process_product p = p := by
  refine ⟨?_, ?_, ?_⟩ <;>
    simp [oda_process_product, meny_process_pair, meny_process_product, h]

/-- C8 witness: the empty-info fixture is returned unchanged. -/
theorem claim_C8_witness :
    oda_process_product pC8 = pC8 ∧
    meny_process_pair Option.none pC8 = (Option.none, pC8) ∧
    meny_process_product pC8 = pC8 :=
  claim_C8 pC8 Option.none rfl

/-- C9: both processors only ever touch `brand`, `subcategory` and
`attributes`; the eleven remaining fields of the product are returned exactly
as they came in, for every input product. -/
theorem claim_C9 (p : Product) :
    (oda_process_product p).product_id = p.product_id ∧
    (oda_process_product p).name = p.name ∧
    (oda_process_product p).info = p.info ∧
    (oda_process_product p).price = p.price ∧
    (oda_process_product p).price_text = p.price_text ∧
    (oda_process_product p).unit_price = p.unit_price ∧
    (oda_process_product p).image_url = p.image_url ∧
    (oda_process_product p).category = p.category ∧
    (oda_process_product p).url = p.url ∧
    (oda_process_product p).scraped_at = p.scraped_at ∧
    (oda_process_product p).run_id = p.run_id ∧
    (meny_process_product p).product_id = p.product_id ∧
    (meny_process_product p).name = p.name ∧
    (meny_process_product p).info = p.info ∧
    (meny_process_product p).price = p.price ∧
    (meny_process_product p).price_text = p.price_text ∧
    (meny_process_product p).unit_price = p.unit_price ∧
    (meny_process_product p).image_url = p.image_url ∧
    (meny_process_product p).category = p.category ∧
    (meny_process_product p).url = p.url ∧
    (meny_process_product p).scraped_at = p.scraped_at ∧
    (meny_process_product p).run_id = p.run_id := by
  by_cases h : p.info = [] <;>
    simp [oda_process_product, meny_process_product, odaBody, menyBody, h]

/-- C10: the uppercase-token fallback of `extract_brand` splits the raw info
text on every comma — including the decimal comma of "1,75L" — and returns
the first all-uppercase fragment of length > 1, so `"Lettmelk 1,75L"` with no
known brand keyword yields the brand `"75L"` (same in both processors when no
brand is stashed). -/
theorem claim_C10 :
    splitOnComma (pyStr "Lettmelk 1,75L") = [pyStr "Lettmelk 1", pyStr "75L"] ∧
    extract_brand (pyStr "Lettmelk 1,75L") (pyStr "") = some (pyStr "75L") ∧
    meny_extract_brand Option.none (pyStr "Lettmelk 1,75L") (pyStr "") =
      some (pyStr "75L") := by
  refine ⟨by decide, by decide, by decide⟩

/-- C5 counterexample: on `"3 pk"` the multipack pattern does not match, yet
processing adds a `unit_size` entry (with value `None`) to the attribute map
— `extract_multipack_info` always returns the full three-key dict and
`dict.update` merges all three keys, contradicting "no unit_size or
unit_size_unit entry is added to the attributes in that branch". -/
theorem claim_C5_counterexample :
    searchMulti (cleanText (pyStr "3 pk")) = Option.none ∧
    getVal pC5.attributes (pyStr "unit_size") = Option.none ∧
    getVal (oda_process_product pC5).attributes (pyStr "unit_size") =
      some Val.none ∧
    getVal (oda_process_product pC5).attributes (pyStr "unit_size_unit") =
      some Val.none := by
  refine ⟨by decide, rfl, by decide, by decide⟩

/-- C5 as amended: when the multipack pattern does not match, the extractor
runs the pack-quantity-only pattern and sets `pack_quantity` from it when it
matches; the merged dict nevertheless still carries `unit_size` and
`unit_size_unit` entries, with value `None`, in that branch. -/
theorem claim_C5 (info : List Char) (h : searchMulti info = Option.none) :
    (extract_multipack_info info).2.1 = Option.none ∧
    (extract_multipack_info info).2.2 = Option.none ∧
    (∀ ds, searchPack info = some ds →
      (extract_multipack_info info).1 = some (digitsToNat ds : ℤ)) ∧
    (searchPack info = Option.none →
      (extract_multipack_info info).1 = Option.none) ∧
    getVal (multipackDict info) (pyStr "unit_size") = some Val.none ∧
    getVal (multipackDict info) (pyStr "unit_size_unit") = some Val.none := by
  have h1 : getVal (multipackDict info) (pyStr "unit_size") =
      some (optValNum (extract_multipack_info info).2.1) := rfl
  have h2 : getVal (multipackDict info) (pyStr "unit_size_unit") =
      some (optValStr (extract_multipack_info info).2.2) := rfl
  cases hp : searchPack info with
  | none =>
    refine ⟨?_, ?_, ?_, ?_, ?_, ?_⟩ <;>
      simp [extract_multipack_info, h, hp, h1, h2, optValNum, optValStr]
  | some ds =>
    refine ⟨?_, ?_, ?_, ?_, ?_, ?_⟩ <;>
      simp [extract_multipack_info, h, hp, h1, h2, optValNum, optValStr]

/-- C5 witness: the amended statement evaluated on `"3 pk"`. -/
theorem claim_C5_witness :
    (extract_multipack_info (pyStr "3 pk")).2.1 = Option.none ∧
    (extract_multipack_info (pyStr "3 pk")).1 = some (3 : ℤ) ∧
    getVal (multipackDict (pyStr "3 pk")) (pyStr "unit_size") = some Val.none := by
  obtain ⟨h1, _, h3, _, h5, _⟩ := claim_C5 (pyStr "3 pk") (by decide)
  exact ⟨h1, h3 (pyStr "3") (by decide), h5⟩

/-- `List.find?` returns the element at the first index whose test passes. -/
theorem find?_of_first {α : Type} (p : α → Bool) :
    ∀ (L : List α) (i : Nat) (hi : i < L.length),
      p (L.get ⟨i, hi⟩) = true →
      (∀ j (hj : j < i), p (L.get ⟨j, Nat.lt_trans hj hi⟩) = false) →
      L.find? p = some (L.get ⟨i, hi⟩) := by
  intro L
  induction L with
  | nil => intro i hi; exact absurd hi (Nat.not_lt_zero i)
  | cons a t ih =>
    intro i hi hp hj
    cases i with
    | zero =>
      simp only [List.get] at hp ⊢
      rw [List.find?_cons_of_pos _ hp]
    | succ k =>
      have ha : p a = false := by simpa using hj 0 (Nat.succ_pos k)
      rw [List.find?_cons_of_neg _ (by simp [ha])]
      simp only [List.get] at hp ⊢
      exact ih k (Nat.lt_of_succ_lt_succ hi) hp
        (fun j hjk => by simpa using hj (j + 1) (Nat.succ_lt_succ hjk))

/-- C6: `determine_subcategory` returns the first entry of the fixed ordered
pair list whose keyword set hits the case-folded name+info text and "other"
when no set hits; the order is exactly (melk, plantebasert, ost, smør, egg,
fløte_rømme, yoghurt, kjølte_desserter, cottage_cheese) — so smør is checked
before egg, a text hitting both yields "smør", and
`determine_subcategory("Lettmelk 1,75l", "")` yields "melk". -/
theorem claim_C6 :
    (∀ name info i (hi : i < SUBCATEGORY_MAPPING.length),
      catHit (subcatText name info) (SUBCATEGORY_MAPPING.get ⟨i, hi⟩).2 = true →
      (∀ j (hj : j < i),
        catHit (subcatText name info)
          (SUBCATEGORY_MAPPING.get ⟨j, Nat.lt_trans hj hi⟩).2 = false) →
      determine_subcategory name info = (SUBCATEGORY_MAPPING.get ⟨i, hi⟩).1) ∧
    (∀ name info,
      (∀ pr ∈ SUBCATEGORY_MAPPING, catHit (subcatText name info) pr.2 = false) →
      determine_subcategory name info = pyStr "other") ∧
    determine_subcategory (pyStr "Lettmelk 1,75l") (pyStr "") = pyStr "melk" ∧
    determine_subcategory (pyStr "smør og egg") (pyStr "") = pyStr "smør" ∧
    SUBCATEGORY_MAPPING.map Prod.fst =
      [pyStr "melk", pyStr "plantebasert", pyStr "ost", pyStr "smør",
       pyStr "egg", pyStr "fløte_rømme", pyStr "yoghurt",
       pyStr "kjølte_desserter", pyStr "cottage_cheese"] := by
  refine ⟨?_, ?_, by decide, by decide, by decide⟩
  · intro name info i hi hp hj
    have h := find?_of_first (fun pr => catHit (subcatText name info) pr.2)
      SUBCATEGORY_MAPPING i hi hp hj
    simp [determine_subcategory, h]
  · intro name info hall
    have h : SUBCATEGORY_MAPPING.find?
        (fun pr => catHit (subcatText name info) pr.2) = Option.none :=
      List.find?_eq_none.mpr (fun pr hpr => by simp [hall pr hpr])
    simp [determine_subcategory, h]

/-- C6 witness: "brelett" hits only the smør keyword set (index 3), and the
classifier indeed returns "smør" for it. -/
theorem claim_C6_witness :
    determine_subcategory (pyStr "brelett") (pyStr "") = pyStr "smør" := by
  exact claim_C6.1 (pyStr "brelett") (pyStr "") 3 (by decide) (by decide) (by decide)

/-- `takeWhile` passes over a block of elements that all satisfy the test. -/
theorem takeWhile_append_all (p : Char → Bool) (l r : List Char)
    (h : ∀ c ∈ l, p c = true) :
    (l ++ r).takeWhile p = l ++ r.takeWhile p := by
  induction l with
  | nil => simp
  | cons a t ih =>
    have ha : p a = true := h a (List.mem_cons_self a t)
    simp [List.takeWhile_cons, ha,
      ih (fun c hc => h c (List.mem_cons_of_mem a hc))]

/-- A list that is not nil has `isEmpty = false`. -/
theorem isEmpty_false_of_ne (l : List Char) (h : l ≠ []) : l.isEmpty = false := by
  cases l with
  | nil => exact absurd rfl h
  | cons a t => rfl

/-- `ciStarts` is the Boolean prefix test against the lower-cased text. -/
theorem ciStarts_eq : ∀ (a u : List Char), ciStarts a u = a.isPrefixOf (lowerStr u) := by
  intro a
  induction a with
  | nil => intro u; cases u <;> rfl
  | cons p ps ih =>
    intro u
    cases u with
    | nil => rfl
    | cons c cs =>
      show ((lowerChar c == p) && ciStarts ps cs) =
        ((p == lowerChar c) && List.isPrefixOf ps (lowerStr cs))
      rw [ih cs]
      by_cases h : lowerChar c = p
      · subst h; rfl
      · rw [beq_false_of_ne h, beq_false_of_ne (Ne.symm h)]

/-- A character of the `\s` class is fixed by `lowerChar`. -/
theorem lowerChar_space (c : Char) (h : isSpaceCh c = true) : lowerChar c = c := by
  simp [isSpaceCh] at h
  rcases h with ((((h | h) | h) | h) | h) | h <;> subst h <;> decide

/-- A text whose lower-casing is one of the size units starts with a
non-whitespace character. -/
theorem unit_head (u : List Char) (hu : lowerStr u ∈ sizeUnits) :
    ∃ c t, u = c :: t ∧ isSpaceCh c = false := by
  cases u with
  | nil => exact absurd hu (by decide)
  | cons c t =>
    refine ⟨c, t, rfl, ?_⟩
    by_cases hs : isSpaceCh c = true
    · exfalso
      have hc : lowerChar c = c := lowerChar_space c hs
      rw [show lowerStr (c :: t) = lowerChar c :: lowerStr t from rfl, hc] at hu
      simp [isSpaceCh] at hs
      rcases hs with ((((h | h) | h) | h) | h) | h <;> subst h <;>
        simp [sizeUnits, pyStr] at hu
    · simpa using hs

/-- When the lower-casing of the text is exactly one of the size-unit
alternatives, the ordered alternation finds precisely that alternative (no
earlier unit is a prefix of a later one). -/
theorem findUnit (u : List Char) (hu : lowerStr u ∈ sizeUnits) :
    findCI sizeUnits u = some (lowerStr u) := by
  have he : (fun a => ciStarts a u) = (fun a => a.isPrefixOf (lowerStr u)) :=
    funext (fun a => ciStarts_eq a u)
  simp only [findCI, he]
  simp only [sizeUnits, List.mem_cons, List.not_mem_nil, or_false] at hu
  rcases hu with h | h | h | h | h | h | h <;> rw [h] <;> decide

/-- Digit characters are unaffected by the comma/dot tests. -/
theorem digit_facts (c : Char) (h : isDigitCh c = true) :
    (c == ',') = false ∧ (c == '.') = false ∧ (!(c == '.')) = true ∧
      (if c == ',' then '.' else c) = c := by
  by_cases hc : c = ','
  · subst hc; exact absurd h (by decide)
  · by_cases hd : c = '.'
    · subst hd; exact absurd h (by decide)
    · refine ⟨beq_false_of_ne hc, beq_false_of_ne hd, ?_, ?_⟩
      · rw [beq_false_of_ne hd]; rfl
      · simp [beq_false_of_ne hc]

/-- Mapping a function that fixes every element of a list is the identity. -/
theorem map_id_on (f : Char → Char) (l : List Char) (h : ∀ c ∈ l, f c = c) :
    l.map f = l := by
  induction l with
  | nil => rfl
  | cons a t ih =>
    simp [h a (List.mem_cons_self a t),
      ih (fun c hc => h c (List.mem_cons_of_mem a hc))]

/-- The number sub-pattern `(\d+(?:[.,]\d+)?)` on a text of the shape
`N sep M rest` with `rest` not starting with a digit: group 1 is `N sep M`. -/
theorem matchNumAt_shape (N M rest : List Char) (sep : Char)
    (hN : N ≠ []) (hNd : ∀ c ∈ N, isDigitCh c = true)
    (hM : M ≠ []) (hMd : ∀ c ∈ M, isDigitCh c = true)
    (hsep : sep = ',' ∨ sep = '.')
    (hrest : rest.takeWhile isDigitCh = []) :
    matchNumAt (N ++ sep :: (M ++ rest)) = some (N ++ sep :: M, rest) := by
  have hsepd : isDigitCh sep = false := by rcases hsep with h | h <;> subst h <;> decide
  have hsepc : (sep == '.' || sep == ',') = true := by
    rcases hsep with h | h <;> subst h <;> decide
  have hds : (N ++ sep :: (M ++ rest)).takeWhile isDigitCh = N := by
    rw [takeWhile_append_all isDigitCh N _ hNd]
    simp [List.takeWhile_cons, hsepd]
  have hfs : (M ++ rest).takeWhile isDigitCh = M := by
    rw [takeWhile_append_all isDigitCh M _ hMd, hrest, List.append_nil]
  simp only [matchNumAt, hds, isEmpty_false_of_ne N hN, Bool.false_eq_true,
    if_false, List.drop_left]
  simp only [hsepc, if_true, hfs, isEmpty_false_of_ne M hM, Bool.false_eq_true,
    if_false, List.drop_left]

/-- The full size pattern on a text of the shape `N sep M ' ' unit`. -/
theorem matchSizeAt_shape (N M u : List Char) (sep : Char)
    (hN : N ≠ []) (hNd : ∀ c ∈ N, isDigitCh c = true)
    (hM : M ≠ []) (hMd : ∀ c ∈ M, isDigitCh c = true)
    (hsep : sep = ',' ∨ sep = '.')
    (hu : lowerStr u ∈ sizeUnits) :
    matchSizeAt (N ++ sep :: (M ++ ' ' :: u)) = some (N ++ sep :: M, lowerStr u) := by
  have hrest : (' ' :: u).takeWhile isDigitCh = [] := by
    simp [List.takeWhile_cons, show isDigitCh ' ' = false from by decide]
  have hnum := matchNumAt_shape N M (' ' :: u) sep hN hNd hM hMd hsep hrest
  have hdw : (' ' :: u).dropWhile isSpaceCh = u := by
    obtain ⟨c, t, rfl, hc⟩ := unit_head u hu
    simp [List.dropWhile_cons, hc, show isSpaceCh ' ' = true from by decide]
  simp only [matchSizeAt, hnum, hdw, findUnit u hu]

/-- `float(group(1).replace(",", "."))` on `N sep M` is the decimal N.M. -/
theorem parseDec_shape (N M : List Char) (sep : Char)
    (hNd : ∀ c ∈ N, isDigitCh c = true)
    (hMd : ∀ c ∈ M, isDigitCh c = true)
    (hsep : sep = ',' ∨ sep = '.') :
    parseDec (replaceComma (N ++ sep :: M)) =
      (digitsToNat N : ℚ) + (digitsToNat M : ℚ) / (10 : ℚ) ^ M.length := by
  have hrc : replaceComma (N ++ sep :: M) = N ++ '.' :: M := by
    simp only [replaceComma, List.map_append, List.map_cons]
    rw [map_id_on _ N (fun c hc => (digit_facts c (hNd c hc)).2.2.2),
      map_id_on _ M (fun c hc => (digit_facts c (hMd c hc)).2.2.2)]
    rcases hsep with h | h <;> subst h <;> rfl
  rw [hrc]
  have hip : (N ++ '.' :: M).takeWhile (fun c => !(c == '.')) = N := by
    rw [takeWhile_append_all _ N _ (fun c hc => (digit_facts c (hNd c hc)).2.2.1)]
    simp [List.takeWhile_cons]
  simp only [parseDec, hip, List.drop_left]

/-- C4: for every valid size string `N sep M unit` with digit strings N, M,
separator comma or dot, and a unit whose lower-casing is one of
l, ml, g, kg, dl, cl, stk, `extract_size` returns the decimal value N.M (the
comma normalized to a dot before parsing) and the lower-cased unit. -/
theorem claim_C4 (N M u : List Char) (sep : Char)
    (hN : N ≠ []) (hNd : ∀ c ∈ N, isDigitCh c = true)
    (hM : M ≠ []) (hMd : ∀ c ∈ M, isDigitCh c = true)
    (hsep : sep = ',' ∨ sep = '.')
    (hu : lowerStr u ∈ sizeUnits) :
    extract_size (N ++ sep :: (M ++ ' ' :: u)) =
      (some ((digitsToNat N : ℚ) + (digitsToNat M : ℚ) / (10 : ℚ) ^ M.length),
       some (lowerStr u)) := by
  have hms := matchSizeAt_shape N M u sep hN hNd hM hMd hsep hu
  obtain ⟨n0, Nt, rfl⟩ : ∃ n0 Nt, N = n0 :: Nt := by
    cases N with
    | nil => exact absurd rfl hN
    | cons a t => exact ⟨a, t, rfl⟩
  have hsearch : searchSize ((n0 :: Nt) ++ sep :: (M ++ ' ' :: u)) =
      some ((n0 :: Nt) ++ sep :: M, lowerStr u) := by
    rw [List.cons_append]
    show searchWith matchSizeAt (n0 :: (Nt ++ sep :: (M ++ ' ' :: u))) = _
    rw [searchWith, ← List.cons_append, hms]
  simp only [extract_size, hsearch,
    parseDec_shape (n0 :: Nt) M sep hNd hMd hsep]

/-- C4 witness: `extract_size("1,75 l")` gives quantity 1.75 (= 1 + 75/10²)
and unit "l". -/
theorem claim_C4_witness :
    extract_size (pyStr "1,75 l") =
      (some ((digitsToNat (pyStr "1") : ℚ) +
        (digitsToNat (pyStr "75") : ℚ) / (10 : ℚ) ^ (pyStr "75").length),
       some (pyStr "l")) := by
  exact claim_C4 (pyStr "1") (pyStr "75") (pyStr "l") ','
    (by decide) (by decide) (by decide) (by decide) (Or.inl rfl) (by decide)

/-- Setting a key makes it look up to the new value. -/
theorem getVal_setKey_same (d : List (List Char × Val)) (k : List Char) (v : Val) :
    getVal (setKey d k v) k = some v := by
  induction d with
  | nil => simp [setKey, getVal]
  | cons kv t ih =>
    obtain ⟨k2, v2⟩ := kv
    by_cases h : k2 = k
    · subst h; simp [setKey, getVal]
    · simp [setKey, getVal, h, ih]

/-- Setting one key leaves the lookup of another unchanged. -/
theorem getVal_setKey_ne (d : List (List Char × Val)) (k2 k : List Char) (v2 : Val)
    (h : k2 ≠ k) : getVal (setKey d k2 v2) k = getVal d k := by
  induction d with
  | nil => simp [setKey, getVal, h]
  | cons kv t ih =>
    obtain ⟨k3, v3⟩ := kv
    by_cases h3 : k3 = k2
    · subst h3; simp [setKey, getVal, h]
    · by_cases h4 : k3 = k
      · subst h4; simp [setKey, getVal, h3]
      · simp [setKey, getVal, h3, h4, ih]

/-- An update whose keys avoid `k` leaves the lookup of `k` unchanged. -/
theorem getVal_updateAll_notin (L : List (List Char × Val))
    (d : List (List Char × Val)) (k : List Char)
    (h : ∀ kv ∈ L, kv.1 ≠ k) : getVal (updateAll d L) k = getVal d k := by
  induction L generalizing d with
  | nil => rfl
  | cons kv t ih =>
    obtain ⟨k2, v2⟩ := kv
    rw [show updateAll d ((k2, v2) :: t) = updateAll (setKey d k2 v2) t from rfl]
    rw [ih (setKey d k2 v2) (fun kv hkv => h kv (List.mem_cons_of_mem _ hkv))]
    exact getVal_setKey_ne d k2 k v2 (h (k2, v2) (List.mem_cons_self _ _))

/-- After an update with pairwise-distinct keys, every updated key looks up to
its update value. -/
theorem getVal_updateAll_mem (L : List (List Char × Val)) :
    ∀ (d : List (List Char × Val)) (k : List Char) (v : Val),
      (L.map Prod.fst).Nodup → (k, v) ∈ L →
      getVal (updateAll d L) k = some v := by
  induction L with
  | nil => intro d k v _ hmem; simp at hmem
  | cons kv t ih =>
    intro d k v hnd hmem
    obtain ⟨k2, v2⟩ := kv
    rw [show updateAll d ((k2, v2) :: t) = updateAll (setKey d k2 v2) t from rfl]
    have hnd2 : (k2 :: t.map Prod.fst).Nodup := hnd
    rcases List.mem_cons.mp hmem with heq | hmem2
    · injection heq with h1 h2
      subst h1
      subst h2
      have hnotin : k ∉ t.map Prod.fst := (List.nodup_cons.mp hnd2).1
      have hk : ∀ kv ∈ t, kv.1 ≠ k := by
        intro kv hkv hcontra
        exact hnotin (hcontra ▸ List.mem_map_of_mem Prod.fst hkv)
      rw [getVal_updateAll_notin t _ k hk, getVal_setKey_same]
    · exact ih (setKey d k2 v2) k v (List.nodup_cons.mp hnd2).2 hmem2

/-- Setting a key to the value it already has is the identity. -/
theorem setKey_id (d : List (List Char × Val)) (k : List Char) (v : Val)
    (h : getVal d k = some v) : setKey d k v = d := by
  induction d with
  | nil => simp [getVal] at h
  | cons kv t ih =>
    obtain ⟨k2, v2⟩ := kv
    by_cases h2 : k2 = k
    · subst h2
      simp [getVal] at h
      simp [setKey, h]
    · simp [getVal, h2] at h
      simp [setKey, h2, ih h]

/-- An update all of whose pairs already hold is the identity. -/
theorem updateAll_id (L : List (List Char × Val)) (d : List (List Char × Val))
    (h : ∀ kv ∈ L, getVal d kv.1 = some kv.2) : updateAll d L = d := by
  induction L with
  | nil => rfl
  | cons kv t ih =>
    obtain ⟨k, v⟩ := kv
    rw [show updateAll d ((k, v) :: t) = updateAll (setKey d k v) t from rfl]
    rw [setKey_id d k v (h (k, v) (List.mem_cons_self _ _))]
    exact ih (fun kv hkv => h kv (List.mem_cons_of_mem _ hkv))

/-- Applying the same distinct-key update twice equals applying it once. -/
theorem updateAll_idem (d : List (List Char × Val)) (L : List (List Char × Val))
    (hnd : (L.map Prod.fst).Nodup) :
    updateAll (updateAll d L) L = updateAll d L :=
  updateAll_id L (updateAll d L) (fun kv hkv => by
    obtain ⟨k, v⟩ := kv
    exact getVal_updateAll_mem L d k v hnd hkv)

/-- Keys of the conditional fat-content dict. -/
theorem keys_fatDict (i : List Char) :
    ((fatDict i).map Prod.fst).Sublist [pyStr "fat_content"] := by
  cases h : extract_fat_content i
  · simp only [fatDict, h, List.map_nil]
    exact List.nil_sublist _
  · simp only [fatDict, h, List.map_cons, List.map_nil]
    exact List.Sublist.refl _

/-- Keys of the features dict. -/
theorem keys_featuresDict (n i : List Char) :
    ((featuresDict n i).map Prod.fst).Sublist
      ([pyStr "flavor"] ++ [pyStr "product_type"]) := by
  simp only [featuresDict, List.map_append]
  refine List.Sublist.append ?_ ?_
  · cases h : (extract_features n i).1
    · simp only [h, List.map_nil]; exact List.nil_sublist _
    · simp only [h, List.map_cons, List.map_nil]; exact List.Sublist.refl _
  · cases h : (extract_features n i).2
    · simp only [h, List.map_nil]; exact List.nil_sublist _
    · simp only [h, List.map_cons, List.map_nil]; exact List.Sublist.refl _

/-- Keys of the subcategory-specific tail dict of the Oda processor. -/
theorem keys_odaTail (p : Product) (ci : List Char) :
    (((if odaSubcatOf p = some (pyStr "egg") then eggDict ci
       else if odaSubcatOf p = some (pyStr "ost") then cheeseDict ci
       else []).map Prod.fst)).Sublist
      ([pyStr "egg_size", pyStr "egg_quantity", pyStr "egg_type"] ++
       [pyStr "cheese_type", pyStr "aging", pyStr "preparation"]) := by
  by_cases h1 : odaSubcatOf p = some (pyStr "egg")
  · simp only [h1, if_true]
    exact List.sublist_append_left _ _
  · by_cases h2 : odaSubcatOf p = some (pyStr "ost")
    · simp only [h1, h2, if_false, if_true]
      exact List.sublist_append_right _ _
    · simp only [h1, h2, if_false, List.map_nil]
      exact List.nil_sublist _

/-- The keys merged by the Oda processor are pairwise distinct. -/
theorem keys_oda_nodup (p : Product) : ((odaDictsOf p).map Prod.fst).Nodup := by
  have hsub : ((odaDictsOf p).map Prod.fst).Sublist
      ([pyStr "size_quantity", pyStr "size_unit"] ++ [pyStr "fat_content"] ++
       [pyStr "pack_quantity", pyStr "unit_size", pyStr "unit_size_unit"] ++
       [pyStr "lactose_free", pyStr "gluten_free", pyStr "organic", pyStr "vegan"] ++
       ([pyStr "flavor"] ++ [pyStr "product_type"]) ++
       ([pyStr "egg_size", pyStr "egg_quantity", pyStr "egg_type"] ++
        [pyStr "cheese_type", pyStr "aging", pyStr "preparation"])) := by
    simp only [odaDictsOf, List.map_append]
    refine List.Sublist.append (List.Sublist.append (List.Sublist.append
      (List.Sublist.append (List.Sublist.append ?_ ?_) ?_) ?_) ?_) ?_
    · exact List.Sublist.refl _
    · exact keys_fatDict _
    · exact List.Sublist.refl _
    · exact List.Sublist.refl _
    · exact keys_featuresDict _ _
    · exact keys_odaTail p _
  exact List.Nodup.sublist hsub (by decide)

/-- The keys merged by the Meny processor are pairwise distinct. -/
theorem keys_meny_nodup (p : Product) : ((menyDictsOf p).map Prod.fst).Nodup := by
  have hsub : ((menyDictsOf p).map Prod.fst).Sublist
      ([pyStr "size_quantity", pyStr "size_unit"] ++ [pyStr "fat_content"] ++
       [pyStr "pack_quantity", pyStr "unit_size", pyStr "unit_size_unit"] ++
       [pyStr "egg_size", pyStr "egg_quantity", pyStr "egg_type"]) := by
    simp only [menyDictsOf, List.map_append]
    refine List.Sublist.append (List.Sublist.append
      (List.Sublist.append ?_ ?_) ?_) ?_
    · exact List.Sublist.refl _
    · exact keys_fatDict _
    · exact List.Sublist.refl _
    · by_cases h1 : menySubcatOf p = some (pyStr "egg")
      · simp only [h1, if_true]
        exact List.Sublist.refl _
      · simp only [h1, if_false, List.map_nil]
        exact List.nil_sublist _
  exact List.Nodup.sublist hsub (by decide)

/-- The classifier never returns the empty string. -/
theorem determine_ne_nil (name info : List Char) :
    determine_subcategory name info ≠ [] := by
  unfold determine_subcategory
  cases h : SUBCATEGORY_MAPPING.find?
      (fun pr => catHit (subcatText name info) pr.2) with
  | none => decide
  | some pr =>
    have hmem := List.mem_of_find?_eq_some h
    fin_cases hmem <;> decide

/-- Once set by the classifier, the subcategory field is truthy. -/
theorem truthy_determine (name info : List Char) :
    truthyOpt (some (determine_subcategory name info)) = true := by
  simp [truthyOpt, isEmpty_false_of_ne _ (determine_ne_nil name info)]

/-- Re-resolving the brand of an already-processed product changes nothing. -/
theorem odaBrandOf_idem (p : Product) : odaBrandOf (odaBody p) = odaBrandOf p := by
  by_cases hb : truthyOpt p.brand = true
  · simp [odaBrandOf, odaBody, hb]
  · simp [odaBrandOf, odaBody, hb]

/-- Re-resolving the subcategory of an already-processed product changes
nothing (the classifier always yields a truthy value). -/
theorem odaSubcatOf_idem (p : Product) : odaSubcatOf (odaBody p) = odaSubcatOf p := by
  by_cases hs : truthyOpt p.subcategory = true
  · simp [odaSubcatOf, odaBody, hs]
  · simp [odaSubcatOf, odaBody, hs, truthy_determine]

/-- The dicts merged in a second pass equal those of the first pass. -/
theorem odaDictsOf_idem (p : Product) : odaDictsOf (odaBody p) = odaDictsOf p := by
  simp only [odaDictsOf, odaSubcatOf_idem,
    show (odaBody p).info = p.info from rfl,
    show (odaBody p).name = p.name from rfl]

/-- Meny brand resolution is stable under a second pass. -/
theorem menyBrandOf_idem (p : Product) :
    menyBrandOf (menyBody p) = menyBrandOf p := by
  by_cases hb : truthyOpt p.brand = true
  · simp [menyBrandOf, menyBody, hb]
  · simp [menyBrandOf, menyBody, meny_extract_brand, hb]

/-- Meny subcategory resolution is stable under a second pass. -/
theorem menySubcatOf_idem (p : Product) :
    menySubcatOf (menyBody p) = menySubcatOf p := by
  by_cases hs : truthyOpt p.subcategory = true
  · simp [menySubcatOf, odaSubcatOf, menyBody, hs]
  · simp [menySubcatOf, odaSubcatOf, menyBody, hs, truthy_determine]

/-- The Meny dicts of a second pass equal those of the first pass. -/
theorem menyDictsOf_idem (p : Product) : menyDictsOf (menyBody p) = menyDictsOf p := by
  simp only [menyDictsOf, menySubcatOf_idem,
    show (menyBody p).info = p.info from rfl]

/-- One-pass-stability of the Oda body. -/
theorem odaBody_idem (p : Product) : odaBody (odaBody p) = odaBody p := by
  show ({ odaBody p with
    brand := odaBrandOf (odaBody p),
    subcategory := odaSubcatOf (odaBody p),
    attributes := updateAll (odaBody p).attributes (odaDictsOf (odaBody p)) } :
      Product) = odaBody p
  rw [odaBrandOf_idem, odaSubcatOf_idem, odaDictsOf_idem,
    show (odaBody p).attributes = updateAll p.attributes (odaDictsOf p) from rfl,
    updateAll_idem _ _ (keys_oda_nodup p)]
  rfl

/-- One-pass-stability of the Meny body. -/
theorem menyBody_idem (p : Product) : menyBody (menyBody p) = menyBody p := by
  show ({ menyBody p with
    brand := menyBrandOf (menyBody p),
    subcategory := menySubcatOf (menyBody p),
    attributes := updateAll (menyBody p).attributes (menyDictsOf (menyBody p)) } :
      Product) = menyBody p
  rw [menyBrandOf_idem, menySubcatOf_idem, menyDictsOf_idem,
    show (menyBody p).attributes = updateAll p.attributes (menyDictsOf p) from rfl,
    updateAll_idem _ _ (keys_meny_nodup p)]
  rfl

/-- C7: caller-supplied (truthy) brand and subcategory are never overwritten
by either processor, and both `process_product`s are idempotent: running the
extractor again on an already-processed product yields the same product (the
same pattern-derived attribute values are merged again, changing nothing). -/
theorem claim_C7 (p : Product) :
    (truthyOpt p.brand = true → (oda_process_product p).brand = p.brand) ∧
    (truthyOpt p.subcategory = true →
      (oda_process_product p).subcategory = p.subcategory) ∧
    (truthyOpt p.brand = true → (meny_process_product p).brand = p.brand) ∧
    (truthyOpt p.subcategory = true →
      (meny_process_product p).subcategory = p.subcategory) ∧
    oda_process_product (oda_process_product p) = oda_process_product p ∧
    meny_process_product (meny_process_product p) = meny_process_product p := by
  by_cases h : p.info = []
  · simp [oda_process_product, meny_process_product, h]
  · refine ⟨?_, ?_, ?_, ?_, ?_, ?_⟩
    · intro hb
      simp [oda_process_product, h, odaBody, odaBrandOf, hb]
    · intro hs
      simp [oda_process_product, h, odaBody, odaSubcatOf, hs]
    · intro hb
      simp [meny_process_product, h, menyBody, menyBrandOf, hb]
    · intro hs
      simp [meny_process_product, h, menyBody, menySubcatOf, odaSubcatOf, hs]
    · have hinfo : (odaBody p).info = p.info := rfl
      simp only [oda_process_product, h, if_false, hinfo]
      exact odaBody_idem p
    · have hinfo : (menyBody p).info = p.info := rfl
      simp only [meny_process_product, h, if_false, hinfo]
      exact menyBody_idem p

/-- C7 witness: a processed-looking product with brand TINE and subcategory
melk keeps both through another pass, and processing is idempotent on it. -/
theorem claim_C7_witness :
    (oda_process_product pC7).brand = pC7.brand ∧
    (oda_process_product pC7).subcategory = pC7.subcategory ∧
    (meny_process_product pC7).brand = pC7.brand ∧
    (meny_process_product pC7).subcategory = pC7.subcategory ∧
    oda_process_product (oda_process_product pC7) = oda_process_product pC7 ∧
    meny_process_product (meny_process_product pC7) = meny_process_product pC7 := by
  obtain ⟨h1, h2, h3, h4, h5, h6⟩ := claim_C7 pC7
  exact ⟨h1 (by decide), h2 (by decide), h3 (by decide), h4 (by decide), h5, h6⟩
